import Mathlib

/-!
Verification of the PasswordManager core against its specification.

The Go source is shallowly embedded: byte slices become `List Nat`
(every element below 256 where it matters), Go strings become Lean
`String`s, wall-clock instants become `Nat` seconds, and calls into
external libraries (AES-GCM from crypto/cipher, HMAC-SHA256 from
crypto/hmac, Argon2id from x/crypto, publicsuffix, idna, confusables)
become explicit function parameters carrying the contract the library
documents.  Randomness drawn inside a Go function (salts, nonces,
tokens) is passed in as an explicit argument.
-/

namespace PM

/-- Bytes are lists of naturals; callers carry `< 256` bounds where needed. -/
abbrev Bytes := List Nat

/-! ## Base64 (encoding/base64, StdEncoding) -/

/-- The standard base64 alphabet used by Go's `base64.StdEncoding`. -/
def b64Alphabet : List Char :=
  "ABCDEFGHIJKLMNOPQRSTUVWXYZabcdefghijklmnopqrstuvwxyz0123456789+/".toList

/-- Character for a 6-bit group. -/
def b64Chr (n : Nat) : Char := b64Alphabet.getD n 'A'

/-- Value of a base64 character, `none` when outside the alphabet. -/
def b64Val (c : Char) : Option Nat :=
  let i := b64Alphabet.indexOf c
  if i < 64 then some i else none

/-- Encode bytes into base64 characters, 3 bytes per 4 characters, padded. -/
def b64EncodeChunks : List Nat → List Char
  | [] => []
  | [b1] => [b64Chr (b1 / 4), b64Chr (b1 % 4 * 16), '=', '=']
  | [b1, b2] => [b64Chr (b1 / 4), b64Chr (b1 % 4 * 16 + b2 / 16), b64Chr (b2 % 16 * 4), '=']
  | b1 :: b2 :: b3 :: rest =>
      b64Chr (b1 / 4) :: b64Chr (b1 % 4 * 16 + b2 / 16) ::
      b64Chr (b2 % 16 * 4 + b3 / 64) :: b64Chr (b3 % 64) :: b64EncodeChunks rest

/-- `base64.StdEncoding.EncodeToString`. -/
def b64Encode (bs : Bytes) : String := String.mk (b64EncodeChunks bs)

/-- Decode base64 characters back into bytes; strict on chunking and padding. -/
def b64DecodeChunks : List Char → Option (List Nat)
  | [] => some []
  | c1 :: c2 :: c3 :: c4 :: rest =>
      match b64Val c1, b64Val c2 with
      | some v1, some v2 =>
          if c3 = '=' then
            if c4 = '=' && rest.isEmpty then some [v1 * 4 + v2 / 16] else none
          else
            match b64Val c3 with
            | some v3 =>
                if c4 = '=' then
                  if rest.isEmpty then some [v1 * 4 + v2 / 16, v2 % 16 * 16 + v3 / 4] else none
                else
                  match b64Val c4 with
                  | some v4 =>
                      (b64DecodeChunks rest).map
                        (fun tail =>
                          (v1 * 4 + v2 / 16) :: (v2 % 16 * 16 + v3 / 4) ::
                          (v3 % 4 * 64 + v4) :: tail)
                  | none => none
            | none => none
      | _, _ => none
  | _ => none

/-- `base64.StdEncoding.DecodeString`; `none` models a decode error. -/
def b64Decode (s : String) : Option (List Nat) := b64DecodeChunks s.toList

theorem b64Val_chr : ∀ n < 64, b64Val (b64Chr n) = some n := by decide

theorem b64Chr_ne_pad (n : Nat) : b64Chr n ≠ '=' := by
  by_cases h : n < 64
  · exact (by decide : ∀ m < 64, b64Chr m ≠ '=') n h
  · unfold b64Chr
    rw [List.getD_eq_default]
    · decide
    · have : b64Alphabet.length = 64 := by decide
      omega

theorem b64DecodeChunks_encode (bs : List Nat) (h : ∀ b ∈ bs, b < 256) :
    b64DecodeChunks (b64EncodeChunks bs) = some bs := by
  induction bs using b64EncodeChunks.induct with
  | case1 => rfl
  | case2 b1 =>
      have h1 : b1 < 256 := h b1 (by simp)
      simp only [b64EncodeChunks, b64DecodeChunks]
      rw [b64Val_chr _ (by omega), b64Val_chr _ (by omega)]
      simp only [b64Chr_ne_pad]
      simp
      omega
  | case3 b1 b2 =>
      have h1 : b1 < 256 := h b1 (by simp)
      have h2 : b2 < 256 := h b2 (by simp)
      simp only [b64EncodeChunks, b64DecodeChunks]
      rw [b64Val_chr _ (by omega), b64Val_chr _ (by omega), b64Val_chr _ (by omega)]
      simp [b64Chr_ne_pad]
      omega
  | case4 b1 b2 b3 rest ih =>
      have h1 : b1 < 256 := h b1 (by simp)
      have h2 : b2 < 256 := h b2 (by simp)
      have h3 : b3 < 256 := h b3 (by simp)
      have hrest : ∀ b ∈ rest, b < 256 := fun b hb => h b (by simp [hb])
      simp only [b64EncodeChunks, b64DecodeChunks]
      rw [b64Val_chr _ (by omega), b64Val_chr _ (by omega), b64Val_chr _ (by omega),
        b64Val_chr _ (by omega), ih hrest]
      simp [b64Chr_ne_pad]
      omega

theorem b64Decode_encode (bs : Bytes) (h : ∀ b ∈ bs, b < 256) :
    b64Decode (b64Encode bs) = some bs := by
  have : (String.mk (b64EncodeChunks bs)).toList = b64EncodeChunks bs := rfl
  rw [b64Decode, b64Encode, this, b64DecodeChunks_encode bs h]

theorem b64Encode_ne_empty (bs : Bytes) (h : bs ≠ []) : b64Encode bs ≠ "" := by
  rcases bs with _ | ⟨b1, _ | ⟨b2, _ | ⟨b3, rest⟩⟩⟩ <;>
    simp_all [b64Encode, b64EncodeChunks, String.ext_iff]

/-! ## AEAD interface (crypto/cipher's AES-256-GCM)

`cipher.NewGCM(aes.NewCipher(key))` is external library code; it is
modelled as any sealing scheme satisfying the contract Go documents:
`Open` inverts `Seal`, and `Seal` appends a 16-byte tag. -/

/-- An authenticated cipher: `seal key nonce plaintext aad` yields
ciphertext-plus-tag, `opn` inverts it. -/
structure AEAD where
  enc : Bytes → Bytes → Bytes → Bytes → Bytes
  opn : Bytes → Bytes → Bytes → Bytes → Option Bytes
  enc_length : ∀ k n p a, (enc k n p a).length = p.length + 16
  opn_enc : ∀ k n p a, opn k n (enc k n p a) a = some p
  enc_bytes : ∀ k n p a, (∀ b ∈ k, b < 256) → (∀ b ∈ p, b < 256) →
    ∀ b ∈ enc k n p a, b < 256

/-- A 16-byte tag derived from the key, for the concrete witness cipher. -/
def toyTag (k : Bytes) : Bytes := ((k ++ List.replicate 16 0).take 16).map (· % 256)

theorem toyTag_length (k : Bytes) : (toyTag k).length = 16 := by
  simp [toyTag]

/-- A concrete cipher satisfying the AEAD contract, used to instantiate
witnesses: the tag records (a digest of) the key. -/
def toyAEAD : AEAD where
  enc := fun k _ p _ => p ++ toyTag k
  opn := fun k _ c _ =>
    if 16 ≤ c.length ∧ c.drop (c.length - 16) = toyTag k then
      some (c.take (c.length - 16))
    else none
  enc_length := by
    intro k n p a
    simp [toyTag]
  opn_enc := by
    intro k n p a
    have hlen : (p ++ toyTag k).length = p.length + 16 := by
      simp only [List.length_append, toyTag_length]
    have hd : (p ++ toyTag k).length - 16 = p.length := by omega
    simp only
    rw [hd, if_pos ⟨by omega, List.drop_left p (toyTag k)⟩, List.take_left]
  enc_bytes := by
    intro k n p a hk hp b hb
    rcases List.mem_append.mp hb with h | h
    · exact hp b h
    · rcases List.mem_map.mp h with ⟨x, _, rfl⟩
      exact Nat.mod_lt _ (by omega)

/-- Sealing under one key and opening under a key with a different tag fails
in the witness cipher: the model of GCM authenticity. -/
theorem toyAEAD_auth (k k' n n' p a a' : Bytes) (h : toyTag k ≠ toyTag k') :
    toyAEAD.opn k' n' (toyAEAD.enc k n p a) a' = none := by
  have hlen : (p ++ toyTag k).length = p.length + 16 := by simp [toyTag]
  have hd : (p ++ toyTag k).length - 16 = p.length := by omega
  simp only [toyAEAD, hd]
  rw [if_neg]
  rintro ⟨-, hdrop⟩
  rw [List.drop_left] at hdrop
  exact h hdrop

/-! ## krypto: AES-GCM wrappers (krypto/aead.go)

The nonce drawn from the CSPRNG inside `EncryptAESGCM` is passed in as
the explicit `nonceR` argument. -/

/-- `krypto.EncryptAESGCM(key, plaintext, aad)`. -/
def EncryptAESGCM (A : AEAD) (key plaintext aad nonceR : Bytes) :
    Except String (Bytes × Bytes) :=
  if key.length ≠ 32 then .error "aes-gcm requires a 32-byte key"
  else .ok (nonceR, A.enc key nonceR plaintext aad)

/-- `krypto.DecryptAESGCM(key, nonce, ciphertext, aad)`. -/
def DecryptAESGCM (A : AEAD) (key nonce ciphertext aad : Bytes) :
    Except String Bytes :=
  if key.length ≠ 32 then .error "aes-gcm requires a 32-byte key"
  else if nonce.length ≠ 12 then .error "invalid nonce size"
  else
    match A.opn key nonce ciphertext aad with
    | some p => .ok p
    | none => .error "decrypt"

/-! ## krypto: HKDF-SHA256 (krypto/hkdf.go)

HMAC-SHA256 itself is crypto/hmac + crypto/sha256, external; it is the
parameter `hm`, assumed (where needed) to return 32 bytes. -/

/-- `hkdfExtract(salt, inputKeyMaterial)`. -/
def hkdfExtract (hm : Bytes → Bytes → Bytes) (salt ikm : Bytes) : Bytes :=
  hm (if salt.length = 0 then List.replicate 32 0 else salt) ikm

/-- The round loop of `hkdfExpand`: each round MACs `t ‖ info ‖ [counter]`. -/
def hkdfExpandLoop (hm : Bytes → Bytes → Bytes) (prk info : Bytes) :
    Nat → Nat → Bytes → Bytes
  | 0, _, _ => []
  | r + 1, counter, t =>
      let t2 := hm prk (t ++ info ++ [counter])
      t2 ++ hkdfExpandLoop hm prk info r (counter + 1) t2

/-- `hkdfExpand(prk, info, outLen)`. -/
def hkdfExpand (hm : Bytes → Bytes → Bytes) (prk info : Bytes) (outLen : Nat) : Bytes :=
  (hkdfExpandLoop hm prk info ((outLen + 32 - 1) / 32) 1 []).take outLen

/-- `krypto.HKDFSHA256(key, salt, info, outLen)`. Go's `outLen <= 0` check
becomes `outLen = 0` over `Nat`. -/
def HKDFSHA256 (hm : Bytes → Bytes → Bytes) (key salt info : Bytes) (outLen : Nat) :
    Except String Bytes :=
  if outLen = 0 then .error "invalid hkdf length"
  else .ok (hkdfExpand hm (hkdfExtract hm salt key) info outLen)

theorem hkdfExpandLoop_length (hm : Bytes → Bytes → Bytes)
    (hm32 : ∀ k m, (hm k m).length = 32) (prk info : Bytes) :
    ∀ r counter t, (hkdfExpandLoop hm prk info r counter t).length = r * 32 := by
  intro r
  induction r with
  | zero => intro counter t; rfl
  | succ n ih =>
      intro counter t
      simp only [hkdfExpandLoop, List.length_append, hm32, ih]
      ring

theorem hkdfExpand_length (hm : Bytes → Bytes → Bytes)
    (hm32 : ∀ k m, (hm k m).length = 32) (prk info : Bytes) (outLen : Nat) :
    (hkdfExpand hm prk info outLen).length = outLen := by
  simp only [hkdfExpand, List.length_take, hkdfExpandLoop_length hm hm32]
  omega

/-! ## Entry crypto (internal/vault/crypto_entries.go)

The per-call random salt and AEAD nonce become the explicit `saltR` /
`nonceR` arguments.  Plaintexts are byte lists (Go strings are byte
strings). -/

def entrySaltLen : Nat := 16

/-- The HKDF info string `"entry-key-v1"` as bytes. -/
def entryInfo : Bytes := "entry-key-v1".toList.map Char.toNat

/-- `vault.EncryptEntryPassword(mek, website, username, typ, plaintext)`. -/
def EncryptEntryPassword (A : AEAD) (hm : Bytes → Bytes → Bytes) (mek : Bytes)
    (website username typ : String) (plaintext : Bytes) (saltR nonceR : Bytes) :
    Except String (Bytes × Bytes) :=
  if mek.length ≠ 32 then .error "invalid MEK length"
  else
    let _ := website
    let _ := username
    let _ := typ
    let salt := saltR
    match HKDFSHA256 hm mek salt entryInfo 32 with
    | .error e => .error e
    | .ok perKey =>
        match EncryptAESGCM A perKey plaintext [] nonceR with
        | .error e => .error e
        | .ok (nonce, ciphertext) => .ok (salt, nonce ++ ciphertext)

/-- `vault.DecryptEntryPassword(mek, website, username, typ, salt, blob)`:
decrypts, then re-encrypts with fresh material (`saltR2`, `nonceR2`) to
rotate the stored salt and nonce. -/
def DecryptEntryPassword (A : AEAD) (hm : Bytes → Bytes → Bytes) (mek : Bytes)
    (website username typ : String) (salt blob : Bytes) (saltR2 nonceR2 : Bytes) :
    Except String (Bytes × Bytes × Bytes) :=
  if mek.length ≠ 32 then .error "invalid MEK length"
  else if salt.length ≠ entrySaltLen then .error "invalid entry salt length"
  else if blob.length ≤ 12 then .error "encrypted blob too short"
  else
    match HKDFSHA256 hm mek salt entryInfo 32 with
    | .error e => .error e
    | .ok perKey =>
        let nonce := blob.take 12
        let ciphertext := blob.drop 12
        match DecryptAESGCM A perKey nonce ciphertext [] with
        | .error e => .error e
        | .ok ptBytes =>
            match EncryptEntryPassword A hm mek website username typ ptBytes saltR2 nonceR2 with
            | .error e => .error e
            | .ok (rotatedSalt, rotatedBlob) => .ok (ptBytes, rotatedSalt, rotatedBlob)

/-- The per-entry key as the composition the source computes. -/
def entryKey (hm : Bytes → Bytes → Bytes) (mek salt : Bytes) : Bytes :=
  hkdfExpand hm (hkdfExtract hm salt mek) entryInfo 32

theorem HKDFSHA256_entry (hm : Bytes → Bytes → Bytes) (mek salt : Bytes) :
    HKDFSHA256 hm mek salt entryInfo 32 = .ok (entryKey hm mek salt) := by
  simp [HKDFSHA256, entryKey]

theorem entryKey_length (hm : Bytes → Bytes → Bytes)
    (hm32 : ∀ k m, (hm k m).length = 32) (mek salt : Bytes) :
    (entryKey hm mek salt).length = 32 :=
  hkdfExpand_length hm hm32 _ _ _

theorem EncryptEntryPassword_eq (A : AEAD) (hm : Bytes → Bytes → Bytes)
    (hm32 : ∀ k m, (hm k m).length = 32) (mek : Bytes) (w u t : String)
    (plaintext saltR nonceR : Bytes) (hmek : mek.length = 32) :
    EncryptEntryPassword A hm mek w u t plaintext saltR nonceR =
      .ok (saltR, nonceR ++ A.enc (entryKey hm mek saltR) nonceR plaintext []) := by
  have hkey : (entryKey hm mek saltR).length = 32 := entryKey_length hm hm32 _ _
  rw [EncryptEntryPassword, if_neg (by omega)]
  simp only [HKDFSHA256_entry, EncryptAESGCM, hkey]
  simp

theorem DecryptEntryPassword_of_encrypt (A : AEAD) (hm : Bytes → Bytes → Bytes)
    (hm32 : ∀ k m, (hm k m).length = 32) (mek : Bytes) (w u t : String)
    (plaintext salt1 nonce1 salt2 nonce2 : Bytes) (hmek : mek.length = 32)
    (hs1 : salt1.length = entrySaltLen) (hn1 : nonce1.length = 12) :
    DecryptEntryPassword A hm mek w u t salt1
        (nonce1 ++ A.enc (entryKey hm mek salt1) nonce1 plaintext []) salt2 nonce2 =
      .ok (plaintext, salt2,
        nonce2 ++ A.enc (entryKey hm mek salt2) nonce2 plaintext []) := by
  have hkey : (entryKey hm mek salt1).length = 32 := entryKey_length hm hm32 _ _
  have hsl : (A.enc (entryKey hm mek salt1) nonce1 plaintext []).length =
      plaintext.length + 16 := A.enc_length _ _ _ _
  have hblen : (nonce1 ++ A.enc (entryKey hm mek salt1) nonce1 plaintext []).length =
      plaintext.length + 28 := by
    simp only [List.length_append, hn1, hsl]
    omega
  have htake : (nonce1 ++ A.enc (entryKey hm mek salt1) nonce1 plaintext []).take 12 =
      nonce1 := by
    rw [← hn1, List.take_left]
  have hdrop : (nonce1 ++ A.enc (entryKey hm mek salt1) nonce1 plaintext []).drop 12 =
      A.enc (entryKey hm mek salt1) nonce1 plaintext [] := by
    rw [← hn1, List.drop_left]
  rw [DecryptEntryPassword, if_neg (by omega), if_neg (by omega), if_neg (by omega)]
  simp only [HKDFSHA256_entry, htake, hdrop, DecryptAESGCM, hkey, hn1, A.opn_enc]
  simp [EncryptEntryPassword_eq A hm hm32 mek w u t plaintext salt2 nonce2 hmek]

/-- A concrete stand-in for HMAC-SHA256 used to instantiate witnesses. -/
def toyHmac (k m : Bytes) : Bytes := ((k ++ m ++ List.replicate 32 0).take 32).map (· % 256)

theorem toyHmac_length (k m : Bytes) : (toyHmac k m).length = 32 := by
  simp [toyHmac]
  omega

/-- C2: encrypt-then-decrypt of an entry password returns the original
plaintext; the decrypt also returns a rotated row that again decrypts to the
same plaintext, and the rotated salt and rotated AEAD nonce (first 12 bytes
of the new blob) are exactly the fresh random draws, hence differ from the
originals whenever the fresh randomness does (the event of probability
overwhelmingly close to one). -/
theorem entry_roundtrip_and_rotation
    (A : AEAD) (hm : Bytes → Bytes → Bytes) (hm32 : ∀ k m, (hm k m).length = 32)
    (mek plaintext : Bytes) (w u t : String)
    (salt1 nonce1 salt2 nonce2 salt3 nonce3 : Bytes)
    (hmek : mek.length = 32)
    (hs1 : salt1.length = 16) (hn1 : nonce1.length = 12)
    (hs2 : salt2.length = 16) (hn2 : nonce2.length = 12)
    (hs3 : salt3.length = 16) (hn3 : nonce3.length = 12)
    (hfresh : salt2 ≠ salt1 ∧ nonce2 ≠ nonce1) :
    ∃ blob1 newBlob,
      EncryptEntryPassword A hm mek w u t plaintext salt1 nonce1 = .ok (salt1, blob1) ∧
      DecryptEntryPassword A hm mek w u t salt1 blob1 salt2 nonce2 =
        .ok (plaintext, salt2, newBlob) ∧
      (∃ newBlob2, DecryptEntryPassword A hm mek w u t salt2 newBlob salt3 nonce3 =
        .ok (plaintext, salt3, newBlob2)) ∧
      salt2 ≠ salt1 ∧ newBlob.take 12 = nonce2 ∧ blob1.take 12 = nonce1 ∧
      newBlob.take 12 ≠ blob1.take 12 := by
  refine ⟨nonce1 ++ A.enc (entryKey hm mek salt1) nonce1 plaintext [],
    nonce2 ++ A.enc (entryKey hm mek salt2) nonce2 plaintext [], ?_, ?_, ?_, ?_, ?_, ?_, ?_⟩
  · exact EncryptEntryPassword_eq A hm hm32 mek w u t plaintext salt1 nonce1 hmek
  · exact DecryptEntryPassword_of_encrypt A hm hm32 mek w u t plaintext salt1 nonce1
      salt2 nonce2 hmek hs1 hn1
  · exact ⟨nonce3 ++ A.enc (entryKey hm mek salt3) nonce3 plaintext [],
      DecryptEntryPassword_of_encrypt A hm hm32 mek w u t plaintext salt2 nonce2
        salt3 nonce3 hmek hs2 hn2⟩
  · exact hfresh.1
  · rw [← hn2, List.take_left]
  · rw [← hn1, List.take_left]
  · have e1 : (nonce2 ++ A.enc (entryKey hm mek salt2) nonce2 plaintext []).take 12 =
        nonce2 := by rw [← hn2]; exact List.take_left _ _
    have e2 : (nonce1 ++ A.enc (entryKey hm mek salt1) nonce1 plaintext []).take 12 =
        nonce1 := by rw [← hn1]; exact List.take_left _ _
    rw [e1, e2]
    exact hfresh.2

/-- Concrete instantiation of the entry round-trip/rotation theorem. -/
theorem entry_roundtrip_and_rotation_witness :
    ∃ blob1 newBlob,
      EncryptEntryPassword toyAEAD toyHmac (List.replicate 32 1) "example.com" "alice"
        "password" [104, 117, 110, 116, 101, 114, 50]
        (List.replicate 16 2) (List.replicate 12 3) =
        .ok (List.replicate 16 2, blob1) ∧
      DecryptEntryPassword toyAEAD toyHmac (List.replicate 32 1) "example.com" "alice"
        "password" (List.replicate 16 2) blob1 (List.replicate 16 4) (List.replicate 12 5) =
        .ok ([104, 117, 110, 116, 101, 114, 50], List.replicate 16 4, newBlob) ∧
      (∃ newBlob2, DecryptEntryPassword toyAEAD toyHmac (List.replicate 32 1) "example.com"
        "alice" "password" (List.replicate 16 4) newBlob
        (List.replicate 16 6) (List.replicate 12 7) =
        .ok ([104, 117, 110, 116, 101, 114, 50], List.replicate 16 6, newBlob2)) ∧
      List.replicate 16 4 ≠ List.replicate 16 2 ∧
      newBlob.take 12 = List.replicate 12 5 ∧
      blob1.take 12 = List.replicate 12 3 ∧
      newBlob.take 12 ≠ blob1.take 12 :=
  entry_roundtrip_and_rotation toyAEAD toyHmac toyHmac_length
    (List.replicate 32 1) [104, 117, 110, 116, 101, 114, 50] "example.com" "alice" "password"
    (List.replicate 16 2) (List.replicate 12 3) (List.replicate 16 4) (List.replicate 12 5)
    (List.replicate 16 6) (List.replicate 12 7)
    (by decide) (by decide) (by decide) (by decide) (by decide) (by decide) (by decide)
    ⟨by decide, by decide⟩

/-! ## Vault header and header store (internal/vault/header.go, store/vaultfs.go)

The persisted `header.json` is modelled as `Option VaultHeader` (`none`
when the file does not exist).  `SaveVaultHeader` writes via temp file
plus atomic rename, so a save either installs the complete new header or
fails leaving the old one; the explicit `saveOk` flag is the IO outcome.
Timestamps are `Nat` (0 models Go's zero `time.Time`). -/

/-- `vault.KDFConfig`. -/
structure KDFConfig where
  name : String
  memoryMB : Nat
  time : Nat
  parallelism : Nat
  saltLen : Int
  keyLen : Nat
deriving DecidableEq

/-- `vault.VaultHeader`; the salt / wrapNonce / wrappedMEK fields hold
base64 strings exactly as in the JSON file. -/
structure VaultHeader where
  version : Int
  user : String
  createdAt : Nat
  updatedAt : Nat
  salt : String
  wrapNonce : String
  wrappedMEK : String
  kdf : KDFConfig
deriving DecidableEq

/-- The fixed associated data `"header.mek"` for wrapping the MEK. -/
def headerMEKAAD : Bytes := "header.mek".toList.map Char.toNat

/-- `store.LoadVaultHeader`. -/
def LoadVaultHeader (file : Option VaultHeader) : Except String VaultHeader :=
  match file with
  | none => .error "file does not exist"
  | some hdr => .ok hdr

/-- `store.SaveVaultHeader`: atomic rename either installs the new header
or fails with the old file intact. -/
def SaveVaultHeader (saveOk : Bool) (hdr : VaultHeader) :
    Except String (Option VaultHeader) :=
  if saveOk then .ok (some hdr) else .error "replace header"

/-- `store.WrapAndSaveMEK(p, hdr, pdk, mek)`; `nonceR` is the random wrap
nonce drawn inside `EncryptAESGCM`, `now` the current time. -/
def WrapAndSaveMEK (A : AEAD) (saveOk : Bool) (hdr : VaultHeader)
    (pdk mek nonceR : Bytes) (now : Nat) : Except String (Option VaultHeader) :=
  if pdk.length ≠ 32 then .error "invalid PDK length"
  else if mek.length ≠ 32 then .error "invalid MEK length"
  else if hdr.version ≠ 1 then .error "unsupported header version"
  else if hdr.kdf.name ≠ "argon2id" then .error "unsupported kdf"
  else
    match EncryptAESGCM A pdk mek headerMEKAAD nonceR with
    | .error e => .error e
    | .ok (nonce, ciphertext) =>
        let hdr1 := { hdr with
          wrapNonce := b64Encode nonce,
          wrappedMEK := b64Encode ciphertext }
        let hdr2 := { hdr1 with
          createdAt := if hdr1.createdAt = 0 then now else hdr1.createdAt,
          updatedAt := now }
        SaveVaultHeader saveOk hdr2

/-- `store.LoadAndUnwrapMEK(p, pdk)`. -/
def LoadAndUnwrapMEK (A : AEAD) (file : Option VaultHeader) (pdk : Bytes) :
    Except String (Bytes × VaultHeader) :=
  if pdk.length ≠ 32 then .error "invalid PDK length"
  else
    match LoadVaultHeader file with
    | .error e => .error e
    | .ok hdr =>
        if hdr.version ≠ 1 then .error "unsupported header version"
        else if hdr.kdf.name ≠ "argon2id" then .error "unsupported kdf"
        else if hdr.wrapNonce = "" ∨ hdr.wrappedMEK = "" then
          .error "wrapped mek not present"
        else
          match b64Decode hdr.wrapNonce with
          | none => .error "decode wrap nonce"
          | some nonce =>
              match b64Decode hdr.wrappedMEK with
              | none => .error "decode wrapped mek"
              | some ciphertext =>
                  match DecryptAESGCM A pdk nonce ciphertext headerMEKAAD with
                  | .error e => .error e
                  | .ok mek => .ok (mek, hdr)

/-- `store.RewrapMEK(p, hdr, newPDK, mek)`. -/
def RewrapMEK (A : AEAD) (saveOk : Bool) (hdr : VaultHeader)
    (newPDK mek nonceR : Bytes) (now : Nat) : Except String (Option VaultHeader) :=
  if newPDK.length ≠ 32 then .error "invalid PDK length"
  else if mek.length ≠ 32 then .error "invalid MEK length"
  else if hdr.version ≠ 1 then .error "unsupported header version"
  else if hdr.kdf.name ≠ "argon2id" then .error "unsupported kdf"
  else
    match EncryptAESGCM A newPDK mek headerMEKAAD nonceR with
    | .error e => .error e
    | .ok (nonce, ciphertext) =>
        SaveVaultHeader saveOk { hdr with
          wrapNonce := b64Encode nonce,
          wrappedMEK := b64Encode ciphertext,
          updatedAt := now }

/-- A wrapped header always unwraps under the wrapping PDK: shared core of
the round-trip results. -/
theorem LoadAndUnwrapMEK_of_wrapped (A : AEAD) (hdr : VaultHeader)
    (pdk mek nonceR : Bytes)
    (hpdk : pdk.length = 32) (hmek : mek.length = 32)
    (hpdkB : ∀ b ∈ pdk, b < 256) (hmekB : ∀ b ∈ mek, b < 256)
    (hn : nonceR.length = 12) (hnB : ∀ b ∈ nonceR, b < 256)
    (hver : hdr.version = 1) (hkdf : hdr.kdf.name = "argon2id")
    (hwn : hdr.wrapNonce = b64Encode nonceR)
    (hwm : hdr.wrappedMEK = b64Encode (A.enc pdk nonceR mek headerMEKAAD)) :
    LoadAndUnwrapMEK A (some hdr) pdk = .ok (mek, hdr) := by
  have hctB : ∀ b ∈ A.enc pdk nonceR mek headerMEKAAD, b < 256 :=
    A.enc_bytes _ _ _ _ hpdkB hmekB
  have hctlen : (A.enc pdk nonceR mek headerMEKAAD).length = mek.length + 16 :=
    A.enc_length _ _ _ _
  have hne1 : hdr.wrapNonce ≠ "" := by
    rw [hwn]
    exact b64Encode_ne_empty _ (by intro hc; rw [hc] at hn; simp at hn)
  have hne2 : hdr.wrappedMEK ≠ "" := by
    rw [hwm]
    refine b64Encode_ne_empty _ ?_
    intro hc
    rw [hc] at hctlen
    simp only [List.length_nil] at hctlen
    omega
  rw [LoadAndUnwrapMEK, if_neg (by omega)]
  simp only [LoadVaultHeader]
  rw [if_neg (by omega), if_neg (by rw [hkdf]; simp), if_neg (by simp [hne1, hne2])]
  rw [hwn, hwm, b64Decode_encode _ hnB, b64Decode_encode _ hctB]
  simp [DecryptAESGCM, hpdk, hn, A.opn_enc]

/-- C1: for 32-byte `pdk` and `mek` and a header with version 1 and KDF
`argon2id`, a successful `WrapAndSaveMEK` is inverted by
`LoadAndUnwrapMEK` under the same `pdk`, returning exactly `mek`. -/
theorem wrap_then_unwrap_roundtrip (A : AEAD) (hdr : VaultHeader)
    (pdk mek nonceR : Bytes) (now : Nat) (saveOk : Bool)
    (file' : Option VaultHeader)
    (hpdk : pdk.length = 32) (hmek : mek.length = 32)
    (hpdkB : ∀ b ∈ pdk, b < 256) (hmekB : ∀ b ∈ mek, b < 256)
    (hn : nonceR.length = 12) (hnB : ∀ b ∈ nonceR, b < 256)
    (hver : hdr.version = 1) (hkdf : hdr.kdf.name = "argon2id")
    (hsucc : WrapAndSaveMEK A saveOk hdr pdk mek nonceR now = .ok file') :
    ∃ hdr', LoadAndUnwrapMEK A file' pdk = .ok (mek, hdr') := by
  rw [WrapAndSaveMEK, if_neg (by omega), if_neg (by omega), if_neg (by omega),
    if_neg (by rw [hkdf]; simp)] at hsucc
  rw [EncryptAESGCM, if_neg (by omega)] at hsucc
  rcases saveOk with _ | _
  · simp [SaveVaultHeader] at hsucc
  · simp only [SaveVaultHeader, if_true, Except.ok.injEq] at hsucc
    subst hsucc
    exact ⟨_, LoadAndUnwrapMEK_of_wrapped A _ pdk mek nonceR hpdk hmek hpdkB hmekB
      hn hnB (by simpa using hver) (by simpa using hkdf) rfl rfl⟩

/-- Concrete header used by witnesses. -/
def witHdr : VaultHeader :=
  { version := 1, user := "alice", createdAt := 0, updatedAt := 0,
    salt := "", wrapNonce := "", wrappedMEK := "",
    kdf := { name := "argon2id", memoryMB := 64, time := 3, parallelism := 1,
             saltLen := 12, keyLen := 32 } }

/-- Concrete instantiation of the wrap/unwrap round trip. -/
theorem wrap_then_unwrap_roundtrip_witness :
    ∃ hdr', LoadAndUnwrapMEK toyAEAD
        (match WrapAndSaveMEK toyAEAD true witHdr (List.replicate 32 9)
            (List.replicate 32 7) (List.replicate 12 8) 5 with
          | .ok f => f
          | .error _ => none)
        (List.replicate 32 9) = .ok (List.replicate 32 7, hdr') :=
  wrap_then_unwrap_roundtrip toyAEAD witHdr (List.replicate 32 9)
    (List.replicate 32 7) (List.replicate 12 8) 5 true _
    (by decide) (by decide) (by decide) (by decide) (by decide) (by decide)
    (by decide) (by decide) (by rfl)

/-! ## Session state (native-host/main.go, sessionState)

Wall-clock instants are `Nat` seconds; `time.Time{}` is 0.  The nonce
set `map[string]struct{}` keeps Go's nil/empty distinction as
`Option (List String)`.  `subtle.ConstantTimeCompare` on equal-purpose
strings is equality. -/

/-- `unlockTTL = 10 * time.Minute`, in seconds. -/
def unlockTTLSeconds : Nat := 600

/-- The errors `validateRequest` can return. -/
inductive SessErr where
  | unauthorized
  | expired
  | invalidState
  | nonceReplayed
deriving DecidableEq

/-- `sessionState`. -/
structure SessionState where
  token : String
  mek : Bytes
  expires : Nat
  dir : String
  nonces : Option (List String)
  ownerUID : String
deriving DecidableEq

/-- `sessionState.clearLockedUnsafe` (and the zero value of the struct). -/
def emptySession : SessionState :=
  { token := "", mek := [], expires := 0, dir := "", nonces := none, ownerUID := "" }

/-- `sessionState.establish(dir, mek)`: `tokenR` is the generated token
(empty models a CSPRNG failure), `now` the current time, `uid` the OS
user identifier. -/
def establish (s : SessionState) (dir : String) (mek : Bytes)
    (tokenR : Option String) (now : Nat) (uid : String) :
    (Except String (String × Nat)) × SessionState :=
  let _ := s
  match tokenR with
  | none => (.error "token generation failed", emptySession)
  | some token =>
      (.ok (token, unlockTTLSeconds),
        { token := token, mek := mek, expires := now + unlockTTLSeconds,
          dir := dir, nonces := some [], ownerUID := uid })

/-- `sessionState.validateRequest(token, nonce)`; `now` is the instant of
the call and `uid` the caller's current OS user identifier. -/
def validateRequest (s : SessionState) (token nonce : String) (now : Nat)
    (uid : String) : (Except SessErr (Bytes × String)) × SessionState :=
  if s.token = "" ∨ token = "" ∨ nonce = "" then (.error .unauthorized, s)
  else if s.expires < now then (.error .expired, emptySession)
  else if ¬ (s.token = token) then (.error .unauthorized, s)
  else if s.ownerUID ≠ "" ∧ uid ≠ "" ∧ uid ≠ s.ownerUID then (.error .unauthorized, s)
  else if s.mek.length ≠ 32 then (.error .invalidState, emptySession)
  else
    let ns := s.nonces.getD []
    let s1 := { s with nonces := some ns }
    if nonce ∈ ns then (.error .nonceReplayed, s1)
    else
      (.ok (s.mek, s.dir),
        { s1 with nonces := some (nonce :: ns), expires := now + unlockTTLSeconds })

/-- Any `validateRequest` against a cleared session is rejected as
unauthorized and leaves the state cleared. -/
theorem validateRequest_empty (token nonce : String) (now : Nat) (uid : String) :
    validateRequest emptySession token nonce now uid =
      (.error .unauthorized, emptySession) := by
  simp [validateRequest, emptySession]

/-- C4: replaying an already-accepted nonce on an otherwise valid session
fails with NONCE_REPLAY, leaves the session state (expiry included)
unchanged, and a later request with the correct token and a fresh nonce
still succeeds. -/
theorem nonce_replay_rejected (s : SessionState) (n : String) (now : Nat)
    (uid : String) (ns : List String)
    (htok : s.token ≠ "") (hn : n ≠ "")
    (hexp : now ≤ s.expires)
    (howner : s.ownerUID = "" ∨ uid = "" ∨ uid = s.ownerUID)
    (hmek : s.mek.length = 32)
    (hns : s.nonces = some ns) (hmem : n ∈ ns) :
    validateRequest s s.token n now uid = (.error .nonceReplayed, s) ∧
    (∀ fresh now2, fresh ≠ "" → fresh ∉ ns → now2 ≤ s.expires →
      (validateRequest s s.token fresh now2 uid).1 = .ok (s.mek, s.dir)) := by
  have hself : { s with nonces := some ns } = s := by
    cases s
    simp_all
  constructor
  · rw [validateRequest, if_neg (by simp [htok, hn]), if_neg (by omega), if_neg (by simp),
      if_neg (by rcases howner with h | h | h <;> simp [h]), if_neg (by omega)]
    simp only [hns, Option.getD_some, if_pos hmem, hself]
  · intro fresh now2 hfresh hmem2 hexp2
    rw [validateRequest, if_neg (by simp [htok, hfresh]), if_neg (by omega),
      if_neg (by simp), if_neg (by rcases howner with h | h | h <;> simp [h]),
      if_neg (by omega)]
    simp only [hns, Option.getD_some, if_neg hmem2]

/-- Concrete instantiation of the nonce-replay theorem. -/
theorem nonce_replay_rejected_witness :
    validateRequest
        { token := "tok", mek := List.replicate 32 1, expires := 100, dir := "d",
          nonces := some ["n1"], ownerUID := "1000" } "tok" "n1" 50 "1000" =
      (.error .nonceReplayed,
        { token := "tok", mek := List.replicate 32 1, expires := 100, dir := "d",
          nonces := some ["n1"], ownerUID := "1000" }) ∧
    (∀ fresh now2, fresh ≠ "" → fresh ∉ ["n1"] → now2 ≤
        ({ token := "tok", mek := List.replicate 32 1, expires := 100, dir := "d",
           nonces := some ["n1"], ownerUID := "1000" } : SessionState).expires →
      (validateRequest
          { token := "tok", mek := List.replicate 32 1, expires := 100, dir := "d",
            nonces := some ["n1"], ownerUID := "1000" } "tok" fresh now2 "1000").1 =
        .ok (List.replicate 32 1, "d")) :=
  nonce_replay_rejected
    { token := "tok", mek := List.replicate 32 1, expires := 100, dir := "d",
      nonces := some ["n1"], ownerUID := "1000" } "n1" 50 "1000" ["n1"]
    (by decide) (by decide) (by decide) (Or.inr (Or.inr rfl)) (by decide) rfl
    (by decide)

/-- C5: a successful validate at `now ≤ expires` slides the expiry to
`now + 600`; a validate at `now > expires` (with a non-empty stored and
supplied token and nonce) fails with SESSION_EXPIRED, clears the whole
session, and every subsequent validate on the cleared state is
UNAUTHORIZED. -/
theorem ttl_sliding_and_expiry (s : SessionState) (token nonce : String)
    (now : Nat) (uid : String)
    (htok : s.token ≠ "") (htok2 : token ≠ "") (hn : nonce ≠ "") :
    (now ≤ s.expires → token = s.token →
      (s.ownerUID = "" ∨ uid = "" ∨ uid = s.ownerUID) → s.mek.length = 32 →
      nonce ∉ s.nonces.getD [] →
      validateRequest s token nonce now uid =
        (.ok (s.mek, s.dir),
          { s with nonces := some (nonce :: s.nonces.getD []),
                   expires := now + unlockTTLSeconds }) ∧
      (validateRequest s token nonce now uid).2.expires = now + 600) ∧
    (s.expires < now →
      validateRequest s token nonce now uid = (.error .expired, emptySession) ∧
      (∀ t2 n2 now2 uid2, validateRequest emptySession t2 n2 now2 uid2 =
        (.error .unauthorized, emptySession))) := by
  constructor
  · intro hexp htokeq howner hmek hmem
    have heq : validateRequest s token nonce now uid =
        (.ok (s.mek, s.dir),
          { s with nonces := some (nonce :: s.nonces.getD []),
                   expires := now + unlockTTLSeconds }) := by
      rw [validateRequest, if_neg (by simp [htok, htok2, hn]), if_neg (by omega),
        if_neg (by simp [htokeq]), if_neg (by rcases howner with h | h | h <;> simp [h]),
        if_neg (by omega), if_neg hmem]
    refine ⟨heq, ?_⟩
    rw [heq]
    rfl
  · intro hexp
    constructor
    · rw [validateRequest, if_neg (by simp [htok, htok2, hn]), if_pos (by omega)]
    · intro t2 n2 now2 uid2
      exact validateRequest_empty t2 n2 now2 uid2

/-- Concrete instantiation of the TTL sliding/expiry theorem. -/
theorem ttl_sliding_and_expiry_witness :
    ((50 : Nat) ≤ 100 → "tok" = "tok" →
      (("1000" : String) = "" ∨ ("1000" : String) = "" ∨ ("1000" : String) = "1000") →
      (List.replicate 32 1).length = 32 → ("n9" : String) ∉ (some ["n1"]).getD [] →
      validateRequest
          { token := "tok", mek := List.replicate 32 1, expires := 100, dir := "d",
            nonces := some ["n1"], ownerUID := "1000" } "tok" "n9" 50 "1000" =
        (.ok (List.replicate 32 1, "d"),
          { token := "tok", mek := List.replicate 32 1, expires := 50 + unlockTTLSeconds,
            dir := "d", nonces := some ["n9", "n1"], ownerUID := "1000" }) ∧
      (validateRequest
          { token := "tok", mek := List.replicate 32 1, expires := 100, dir := "d",
            nonces := some ["n1"], ownerUID := "1000" } "tok" "n9" 50 "1000").2.expires =
        50 + 600) ∧
    ((100 : Nat) < 50 →
      validateRequest
          { token := "tok", mek := List.replicate 32 1, expires := 100, dir := "d",
            nonces := some ["n1"], ownerUID := "1000" } "tok" "n9" 50 "1000" =
        (.error .expired, emptySession) ∧
      (∀ t2 n2 now2 uid2, validateRequest emptySession t2 n2 now2 uid2 =
        (.error .unauthorized, emptySession))) :=
  ttl_sliding_and_expiry
    { token := "tok", mek := List.replicate 32 1, expires := 100, dir := "d",
      nonces := some ["n1"], ownerUID := "1000" } "tok" "n9" 50 "1000"
    (by decide) (by decide) (by decide)

/-! ## Native messaging framing (native-host/main.go, readFrame / main) -/

/-- `maxFrameSize = 1 << 20` (1 MiB). -/
def maxFrameSize : Nat := 1 <<< 20

/-- Errors of `readFrame`: a clean EOF before any byte of the frame, a
short read (`io.ErrUnexpectedEOF`), or an oversized declared length. -/
inductive FrameErr where
  | eof
  | shortRead
  | tooLarge (n : Nat)
deriving DecidableEq

/-- `binary.LittleEndian.Uint32` over the 4-byte prefix. -/
def leUint32 (bs : Bytes) : Nat :=
  bs.getD 0 0 + 256 * bs.getD 1 0 + 65536 * bs.getD 2 0 + 16777216 * bs.getD 3 0

/-- `readFrame(r)`: the buffered reader is the remaining byte stream. -/
def readFrame (input : Bytes) : Except FrameErr (Bytes × Bytes) :=
  if input.isEmpty then .error .eof
  else if input.length < 4 then .error .shortRead
  else
    let length := leUint32 (input.take 4)
    let rest := input.drop 4
    if maxFrameSize < length then .error (.tooLarge length)
    else if rest.length < length then .error .shortRead
    else .ok (rest.take length, rest.drop length)

/-- How a run of the main loop ends. -/
inductive LoopExit where
  | cleanEOF
  | readError
  | outOfFuel
deriving DecidableEq

/-- The request/response loop of `main`: read a frame, dispatch it through
`handler` (`handleRequest`), emit the response, repeat.  A clean EOF ends
the process normally; any other read error terminates it with no response
for the offending frame. -/
def hostLoop {R : Type} (handler : Bytes → R) : Nat → Bytes → List R × LoopExit
  | 0, _ => ([], .outOfFuel)
  | fuel + 1, input =>
      match readFrame input with
      | .error .eof => ([], .cleanEOF)
      | .error _ => ([], .readError)
      | .ok (payload, rest) =>
          let resp := handler payload
          let step := hostLoop handler fuel rest
          (resp :: step.1, step.2)

/-- C8: a frame whose 4-byte little-endian prefix declares more than
1 MiB makes `readFrame` fail and the loop terminate with no response
emitted; a declared length of at most 1 MiB (with the payload available)
is read in full and dispatched to the handler. -/
theorem oversized_frame_kills_process {R : Type} (handler : Bytes → R)
    (input : Bytes) (fuel : Nat) (h4 : 4 ≤ input.length) :
    (maxFrameSize < leUint32 (input.take 4) →
      readFrame input = .error (.tooLarge (leUint32 (input.take 4))) ∧
      hostLoop handler (fuel + 1) input = ([], .readError)) ∧
    (leUint32 (input.take 4) ≤ maxFrameSize →
      leUint32 (input.take 4) ≤ (input.drop 4).length →
      readFrame input = .ok ((input.drop 4).take (leUint32 (input.take 4)),
        (input.drop 4).drop (leUint32 (input.take 4))) ∧
      (hostLoop handler (fuel + 1) input).1.head? =
        some (handler ((input.drop 4).take (leUint32 (input.take 4))))) := by
  have hne : input.isEmpty = false := by
    cases input
    · simp at h4
    · rfl
  constructor
  · intro hbig
    have hrf : readFrame input = .error (.tooLarge (leUint32 (input.take 4))) := by
      rw [readFrame, hne]
      simp only [Bool.false_eq_true, if_false]
      rw [if_neg (by omega), if_pos hbig]
    refine ⟨hrf, ?_⟩
    rw [hostLoop, hrf]
  · intro hsmall havail
    have hrf : readFrame input = .ok ((input.drop 4).take (leUint32 (input.take 4)),
        (input.drop 4).drop (leUint32 (input.take 4))) := by
      rw [readFrame, hne]
      simp only [Bool.false_eq_true, if_false]
      rw [if_neg (by omega), if_neg (by omega), if_neg (by omega)]
    refine ⟨hrf, ?_⟩
    rw [hostLoop, hrf]
    rfl

/-- Concrete instantiation of the frame-limit theorem: the length prefix
`[1,0,16,0]` declares 2^20 + 1 bytes and is rejected; `[2,0,0,0]` with a
2-byte body is dispatched. -/
theorem oversized_frame_kills_process_witness :
    ((maxFrameSize < leUint32 [1, 0, 16, 0] ∨ True) ∧
      readFrame [1, 0, 16, 0] = .error (.tooLarge 1048577) ∧
      hostLoop (fun payload => payload) 5 [1, 0, 16, 0] = ([], .readError)) ∧
    (readFrame [2, 0, 0, 0, 65, 66] = .ok ([65, 66], []) ∧
      (hostLoop (fun payload => payload) 5 [2, 0, 0, 0, 65, 66]).1.head? =
        some [65, 66]) := by
  have h1 := oversized_frame_kills_process (fun payload : Bytes => payload)
    ([1, 0, 16, 0] : Bytes) 4 (by decide)
  have h2 := oversized_frame_kills_process (fun payload : Bytes => payload)
    ([2, 0, 0, 0, 65, 66] : Bytes) 4 (by decide)
  refine ⟨⟨Or.inr trivial, ?_⟩, ?_⟩
  · exact h1.1 (by decide)
  · exact h2.2 (by decide) (by decide)

/-- `strings.TrimSpace`, executably (Lean's `String.trim` does not reduce
in the kernel): drop whitespace from both ends. -/
def goTrimSpace (s : String) : String :=
  String.mk (((s.toList.dropWhile Char.isWhitespace).reverse.dropWhile
    Char.isWhitespace).reverse)

/-! ## Argon2id KDF (krypto, unnamed krypto source file)

`argon2.IDKey` from x/crypto is external; it is the parameter `argon2fn`.
The validation around it is from the source. -/

/-- `krypto.Argon2Params`. -/
structure Argon2Params where
  memoryMB : Nat
  time : Nat
  parallelism : Nat
  saltLen : Int
  keyLen : Nat
deriving DecidableEq

/-- `expectedSaltSz = SaltLengthBytes = 12`. -/
def expectedSaltSz : Nat := 12

/-- `krypto.DeriveKeyArgon2id(password, salt, p)`. -/
def DeriveKeyArgon2id (argon2fn : Bytes → Bytes → Argon2Params → Bytes)
    (password salt : Bytes) (p : Argon2Params) : Except String Bytes :=
  if password.length = 0 then .error "password is required"
  else if salt.length = 0 then .error "salt is required"
  else if salt.length ≠ expectedSaltSz then .error "salt must be 12 bytes"
  else if p.keyLen = 0 then .error "key length must be positive"
  else if p.memoryMB = 0 then .error "memory parameter must be positive"
  else if p.time = 0 then .error "time parameter must be positive"
  else if p.saltLen ≤ 0 then .error "salt length must be positive"
  else
    let key := argon2fn password salt p
    if key.length ≠ p.keyLen then .error "derived key has unexpected length"
    else .ok key

/-- A concrete stand-in for `argon2.IDKey` used by witnesses. -/
def toyArgon2 (password salt : Bytes) (p : Argon2Params) : Bytes :=
  ((password ++ salt ++ List.replicate p.keyLen 0).take p.keyLen).map (· % 256)

/-! ## handleUnlock (native-host/main.go)

`filepath.Abs` is modelled as the identity on the request directory;
`tokenR` is the CSPRNG session token (`none` models a generator failure);
`file` is the persisted header. -/

/-- The unlock request body. -/
structure UnlockRequest where
  dir : String
  masterPassword : String
deriving DecidableEq

/-- The wire response envelope, reduced to the fields the host sets. -/
structure HostResponse where
  ok : Bool
  code : String
  token : String
  ttlSeconds : Nat
deriving DecidableEq

/-- Shorthand for a failure response. -/
def failResp (code : String) : HostResponse :=
  { ok := false, code := code, token := "", ttlSeconds := 0 }

/-- `handleUnlock(req)`, returning the response and the new global
session state. -/
def handleUnlock (A : AEAD) (argon2fn : Bytes → Bytes → Argon2Params → Bytes)
    (s : SessionState) (req : UnlockRequest) (file : Option VaultHeader)
    (tokenR : Option String) (now : Nat) (uid : String) :
    HostResponse × SessionState :=
  if goTrimSpace req.dir = "" then (failResp "BAD_REQUEST", s)
  else
    let s0 := emptySession
    let pwBytes := req.masterPassword.toList.map Char.toNat
    if pwBytes.length = 0 then (failResp "BAD_REQUEST", s0)
    else
      match LoadVaultHeader file with
      | .error _ => (failResp "UNLOCK_FAILED", s0)
      | .ok hdr =>
          if hdr.kdf.name ≠ "argon2id" ∨ hdr.salt = "" then
            (failResp "UNLOCK_FAILED", s0)
          else
            match b64Decode hdr.salt with
            | none => (failResp "UNLOCK_FAILED", s0)
            | some salt =>
                let params : Argon2Params :=
                  { memoryMB := hdr.kdf.memoryMB, time := hdr.kdf.time,
                    parallelism := hdr.kdf.parallelism, saltLen := hdr.kdf.saltLen,
                    keyLen := hdr.kdf.keyLen }
                match DeriveKeyArgon2id argon2fn pwBytes salt params with
                | .error _ => (failResp "UNLOCK_FAILED", s0)
                | .ok pdk =>
                    match LoadAndUnwrapMEK A file pdk with
                    | .error _ => (failResp "UNLOCK_FAILED", s0)
                    | .ok (mek, _) =>
                        match establish s0 req.dir mek tokenR now uid with
                        | (.error _, s1) => (failResp "INTERNAL", s1)
                        | (.ok (token, ttl), s1) =>
                            ({ ok := true, code := "", token := token,
                               ttlSeconds := ttl }, s1)

/-- On a non-blank directory, `handleUnlock` either leaves the session
cleared or succeeded with an empty code: the session was destroyed before
password verification began. -/
theorem handleUnlock_clears_or_succeeds (A : AEAD)
    (argon2fn : Bytes → Bytes → Argon2Params → Bytes) (s : SessionState)
    (req : UnlockRequest) (file : Option VaultHeader) (tokenR : Option String)
    (now : Nat) (uid : String) (hdir : goTrimSpace req.dir ≠ "") :
    (handleUnlock A argon2fn s req file tokenR now uid).2 = emptySession ∨
    (handleUnlock A argon2fn s req file tokenR now uid).1.code = "" := by
  rw [handleUnlock, if_neg hdir]
  rcases tokenR with _ | tok <;>
    simp only [establish, emptySession] <;>
    (repeat' split) <;> simp_all [emptySession]

/-- C9: `handleUnlock` clears the session before verifying the submitted
master password; hence after any unlock whose response is UNLOCK_FAILED,
or BAD_REQUEST with a non-blank directory, the session is cleared and
every subsequent `validateRequest` is UNAUTHORIZED. -/
theorem unlock_failure_destroys_session (A : AEAD)
    (argon2fn : Bytes → Bytes → Argon2Params → Bytes) (s : SessionState)
    (req : UnlockRequest) (file : Option VaultHeader) (tokenR : Option String)
    (now : Nat) (uid : String) (hdir : goTrimSpace req.dir ≠ "")
    (hfail : (handleUnlock A argon2fn s req file tokenR now uid).1.code =
        "UNLOCK_FAILED" ∨
      (handleUnlock A argon2fn s req file tokenR now uid).1.code = "BAD_REQUEST") :
    (handleUnlock A argon2fn s req file tokenR now uid).2 = emptySession ∧
    ∀ t n now2 uid2, validateRequest emptySession t n now2 uid2 =
      (.error .unauthorized, emptySession) := by
  refine ⟨?_, fun t n now2 uid2 => validateRequest_empty t n now2 uid2⟩
  rcases handleUnlock_clears_or_succeeds A argon2fn s req file tokenR now uid hdir with
    h | h
  · exact h
  · rcases hfail with hf | hf <;> rw [h] at hf <;> simp at hf

/-- Concrete instantiation: unlocking a vault with no header file fails
with UNLOCK_FAILED and leaves the session destroyed, even though a valid
session existed before the attempt. -/
theorem unlock_failure_destroys_session_witness :
    (handleUnlock toyAEAD toyArgon2
        { token := "tok", mek := List.replicate 32 1, expires := 100, dir := "d",
          nonces := some [], ownerUID := "1000" }
        { dir := "vault", masterPassword := "x" } none (some "t2") 5 "1000").2 =
      emptySession ∧
    ∀ t n now2 uid2, validateRequest emptySession t n now2 uid2 =
      (.error .unauthorized, emptySession) :=
  unlock_failure_destroys_session toyAEAD toyArgon2
    { token := "tok", mek := List.replicate 32 1, expires := 100, dir := "d",
      nonces := some [], ownerUID := "1000" }
    { dir := "vault", masterPassword := "x" } none (some "t2") 5 "1000"
    (by decide) (Or.inl (by rfl))

/-! ## Domain check (native-host/domaincheck/domaincheck.go)

`publicsuffix.EffectiveTLDPlusOne` is external; it is the parameter
`psl` (`none` models its error return). -/

/-- `goToLower`: `strings.ToLower`; Go lowercases all of Unicode while
`Char.toLower` only maps ASCII — every host compared by the claims is
already lowercase outside ASCII, where the two agree. -/
def goToLower (s : String) : String := String.mk (s.toList.map Char.toLower)

/-- `strings.EqualFold`, over the same ASCII fragment. -/
def goEqualFold (a b : String) : Bool := goToLower a == goToLower b

theorem goEqualFold_self (a : String) : goEqualFold a a = true := by
  simp [goEqualFold]

/-- `domaincheck.sanitizeHost`: trim space, drop one trailing dot, cut at
the first colon, lowercase. -/
def sanitizeHost (host : String) : String :=
  let l1 := (goTrimSpace host).toList
  let l2 := if l1.getLast? = some '.' then l1.dropLast else l1
  let l3 := l2.takeWhile (fun c => c ≠ ':')
  String.mk (l3.map Char.toLower)

/-- `domaincheck.ETLDPlusOne(host)`. -/
def ETLDPlusOne (psl : String → Option String) (host : String) : Option String :=
  psl (sanitizeHost host)

/-- `domaincheck.AllowAutofill(savedETLD1, host, requireExactHost, exactHost)`. -/
def AllowAutofill (psl : String → Option String) (savedETLD1 host : String)
    (requireExactHost : Bool) (exactHost : String) : Bool :=
  match ETLDPlusOne psl host with
  | none => false
  | some hostETLD1 =>
      if ¬ goEqualFold hostETLD1 savedETLD1 then false
      else if requireExactHost then
        if exactHost = "" then false
        else if ¬ goEqualFold (sanitizeHost host) (sanitizeHost exactHost) then false
        else true
      else true

/-- The gate exactly as `handleGetCredentials` and `handleSaveCredential`
invoke it: `AllowAutofill(req.DomainETLD1, req.ExactHost,
req.RequireExactHost, req.ExactHost)` — the request's exact host is
passed as both the runtime host and the stored exact host. -/
def handlerAutofillGate (psl : String → Option String)
    (domainETLD1 exactHost : String) (requireExactHost : Bool) : Bool :=
  AllowAutofill psl domainETLD1 exactHost requireExactHost exactHost

/-- C10: with `requireExactHost` and a non-empty exact host, the
exact-host equality inside `AllowAutofill` compares the sanitized value
with itself and always passes, so the handlers' gate is the same with or
without `requireExactHost` and reduces to: the eTLD+1 of the sanitized
exact host resolves and equals `domainEtld1` case-insensitively. -/
theorem exact_host_gate_self_comparison (psl : String → Option String)
    (domain exact : String) (hne : exact ≠ "") :
    handlerAutofillGate psl domain exact true =
      handlerAutofillGate psl domain exact false ∧
    (handlerAutofillGate psl domain exact true = true ↔
      ∃ v, psl (sanitizeHost exact) = some v ∧ goEqualFold v domain = true) := by
  unfold handlerAutofillGate AllowAutofill ETLDPlusOne
  cases hp : psl (sanitizeHost exact) with
  | none => simp
  | some v =>
      simp only [goEqualFold_self]
      by_cases hv : goEqualFold v domain = true
      · simp [hv, hne]
      · simp only [Bool.not_eq_true] at hv
        simp [hv, hne]

/-- Concrete instantiation of the exact-host gate theorem. -/
theorem exact_host_gate_self_comparison_witness :
    handlerAutofillGate
        (fun h => if h = "login.example.com" then some "example.com" else none)
        "example.com" "login.example.com" true =
      handlerAutofillGate
        (fun h => if h = "login.example.com" then some "example.com" else none)
        "example.com" "login.example.com" false ∧
    (handlerAutofillGate
        (fun h => if h = "login.example.com" then some "example.com" else none)
        "example.com" "login.example.com" true = true ↔
      ∃ v, (fun h => if h = "login.example.com" then some "example.com" else none)
          (sanitizeHost "login.example.com") = some v ∧
        goEqualFold v "example.com" = true) :=
  exact_host_gate_self_comparison
    (fun h => if h = "login.example.com" then some "example.com" else none)
    "example.com" "login.example.com" (by decide)

/-! ## Entry store and Service (internal/vault db provisioning,
internal/db/sqlite.go, internal/service/service.go)

The `passwords` table is modelled as a row list plus the flag recording
whether the schema that created it carries `UNIQUE(website, username)`.
`Service.New` opens the store through `vault.Open`, whose
`createPasswordsTable` has no UNIQUE clause; the native host opens it
through `db.Open`/`db.Migrate`, whose schema declares
`UNIQUE(website, username)` and a unique index. -/

/-- A row of the `passwords` table. -/
structure EntryRow where
  id : Nat
  encryptedPass : Bytes
  salt : Bytes
  website : String
  username : String
  typ : String
deriving DecidableEq

/-- The `passwords` table plus the uniqueness constraint its creating
schema declared. -/
structure PasswordsTable where
  uniqueSiteUser : Bool
  rows : List EntryRow
  nextId : Nat
deriving DecidableEq

/-- The empty table as created by `vault.Open` / `ensureSchema`
(internal/vault): no `UNIQUE(website, username)` clause. -/
def vaultOpenTable : PasswordsTable :=
  { uniqueSiteUser := false, rows := [], nextId := 1 }

/-- The empty table as created by `db.Open` + `db.Migrate` (internal/db):
`UNIQUE(website, username)` plus a unique index. -/
def dbMigrateTable : PasswordsTable :=
  { uniqueSiteUser := true, rows := [], nextId := 1 }

/-- SQL `INSERT INTO passwords ...`: fails with a constraint violation
exactly when the schema declares the unique constraint and a row with the
same `(website, username)` exists. -/
def insertEntry (t : PasswordsTable) (website username typ : String)
    (salt enc : Bytes) : Except String PasswordsTable :=
  if t.uniqueSiteUser &&
      t.rows.any (fun r => r.website == website && r.username == username) then
    .error "UNIQUE constraint failed: passwords.website, passwords.username"
  else
    let row : EntryRow :=
      { id := t.nextId, encryptedPass := enc, salt := salt,
        website := website, username := username, typ := typ }
    .ok { t with rows := t.rows ++ [row], nextId := t.nextId + 1 }

/-- `service.Service`: the cached MEK (`none` when locked) and the table
behind its SQL handle. -/
structure GoService where
  mek : Option Bytes
  table : PasswordsTable
deriving DecidableEq

/-- `Service.Add(website, username, plaintext)`. -/
def serviceAdd (A : AEAD) (hm : Bytes → Bytes → Bytes) (svc : GoService)
    (website username : String) (plaintext saltR nonceR : Bytes) :
    Except String GoService :=
  match svc.mek with
  | none => .error "vault locked"
  | some mek =>
      if website = "" ∨ username = "" then .error "website and username required"
      else if plaintext = [] then .error "password cannot be empty"
      else
        match EncryptEntryPassword A hm mek website username "password"
            plaintext saltR nonceR with
        | .error e => .error e
        | .ok (salt, blob) =>
            match insertEntry svc.table website username "password" salt blob with
            | .error e => .error e
            | .ok t => .ok { svc with table := t }

/-- `QueryRow ... WHERE website = ? AND username = ?`: first matching row. -/
def findFirstRow (rows : List EntryRow) (website username : String) : Option EntryRow :=
  rows.find? (fun r => r.website == website && r.username == username)

/-- `Service.Update(website, username, newType, newPlaintext)`. -/
def serviceUpdate (A : AEAD) (hm : Bytes → Bytes → Bytes) (svc : GoService)
    (website username newType : String) (newPlaintext saltR nonceR : Bytes) :
    Except String GoService :=
  match svc.mek with
  | none => .error "vault locked"
  | some mek =>
      if website = "" ∨ username = "" then .error "website and username required"
      else if newPlaintext = [] then .error "new password cannot be empty"
      else
        match findFirstRow svc.table.rows website username with
        | none => .error "not found"
        | some row =>
            let typ := if newType = "" then row.typ else newType
            match EncryptEntryPassword A hm mek website username typ
                newPlaintext saltR nonceR with
            | .error e => .error e
            | .ok (salt, blob) =>
                .ok { svc with table := { svc.table with
                  rows := svc.table.rows.map (fun r =>
                    if r.id == row.id then
                      { r with encryptedPass := blob, salt := salt, typ := typ }
                    else r) } }

/-- The schema the native host migrates does reject the duplicate: the
`Conflict` behaviour the spec demands exists in internal/db, not in the
table `Service.New` provisions. -/
theorem insertEntry_unique_rejects_duplicate (website username typ : String)
    (salt1 enc1 salt2 enc2 : Bytes) (t1 : PasswordsTable)
    (h : insertEntry dbMigrateTable website username typ salt1 enc1 = .ok t1) :
    ∃ e, insertEntry t1 website username typ salt2 enc2 = .error e := by
  rw [insertEntry] at h
  simp only [dbMigrateTable] at h
  simp at h
  subst h
  refine ⟨"UNIQUE constraint failed: passwords.website, passwords.username", ?_⟩
  simp [insertEntry]

/-- C3 (violated by the code): on a vault opened by `Service.New`, whose
schema lacks the UNIQUE constraint, a second `Add` for the same
`(site, user)` does not report a conflict — it succeeds and leaves two
rows for the pair. -/
theorem service_add_duplicate_no_conflict :
    ∃ svc1 svc2,
      serviceAdd toyAEAD toyHmac
          { mek := some (List.replicate 32 1), table := vaultOpenTable }
          "example.com" "alice" [1, 2, 3] (List.replicate 16 2) (List.replicate 12 3) =
        .ok svc1 ∧
      serviceAdd toyAEAD toyHmac svc1 "example.com" "alice" [4, 5, 6]
          (List.replicate 16 4) (List.replicate 12 5) = .ok svc2 ∧
      (svc2.table.rows.filter (fun r =>
        r.website == "example.com" && r.username == "alice")).length = 2 :=
  ⟨_, _, rfl, rfl, rfl⟩

/-! ## ChangeMaster (internal/service/service.go, store.RewrapMEK)

`auth.ValidateMasterPasswordAdvanced` consults the strength and breach
oracles; its outcome is the parameter `policyOk`.  `NewRandomSalt`
coerces every requested length to 12, so the fresh salt is the 12-byte
draw `newSaltR`. -/

/-- Go `[]byte(s)` for a string. -/
def strBytes (s : String) : Bytes := s.toList.map Char.toNat

/-- `service.buildKDF(hdr)`. -/
def buildKDF (hdr : VaultHeader) : Except String (Argon2Params × Bytes) :=
  let params : Argon2Params :=
    { memoryMB := hdr.kdf.memoryMB, time := hdr.kdf.time,
      parallelism := hdr.kdf.parallelism, saltLen := hdr.kdf.saltLen,
      keyLen := hdr.kdf.keyLen }
  match b64Decode hdr.salt with
  | none => .error "decode salt"
  | some salt => .ok (params, salt)

/-- `Service.ChangeMaster(oldMaster, newMaster)`: returns the service
outcome together with the resulting persisted header file. -/
def ChangeMaster (A : AEAD) (argon2fn : Bytes → Bytes → Argon2Params → Bytes)
    (policyOk saveOk : Bool) (svc : GoService) (file : Option VaultHeader)
    (oldMaster newMaster : String) (newSaltR wrapNonceR : Bytes) (now : Nat) :
    (Except String GoService) × Option VaultHeader :=
  if oldMaster = "" ∨ newMaster = "" then
    (.error "old and new master passwords are required", file)
  else if ¬ policyOk then (.error "validate new master password", file)
  else
    match LoadVaultHeader file with
    | .error _ => (.error "load header", file)
    | .ok hdr =>
        match buildKDF hdr with
        | .error e => (.error e, file)
        | .ok (params, oldSalt) =>
            match DeriveKeyArgon2id argon2fn (strBytes oldMaster) oldSalt params with
            | .error _ => (.error "derive old PDK", file)
            | .ok oldPDK =>
                match LoadAndUnwrapMEK A file oldPDK with
                | .error _ => (.error "verify old master password", file)
                | .ok (mek, hdrCurrent) =>
                    let newSalt := newSaltR
                    match DeriveKeyArgon2id argon2fn (strBytes newMaster)
                        newSalt params with
                    | .error _ => (.error "derive new PDK", file)
                    | .ok newPDK =>
                        let hdr2 := { hdrCurrent with
                          salt := b64Encode newSalt,
                          kdf := { hdrCurrent.kdf with name := "argon2id" } }
                        match RewrapMEK A saveOk hdr2 newPDK mek wrapNonceR now with
                        | .error _ => (.error "rewrap mek", file)
                        | .ok file2 => (.ok { svc with mek := some mek }, file2)

/-- Inversion of a successful unwrap: the file held exactly the returned
header, with version 1 and the argon2id KDF. -/
theorem LoadAndUnwrapMEK_ok_inv (A : AEAD) (file : Option VaultHeader)
    (pdk mek : Bytes) (hdrOut : VaultHeader)
    (h : LoadAndUnwrapMEK A file pdk = .ok (mek, hdrOut)) :
    file = some hdrOut ∧ hdrOut.version = 1 ∧ hdrOut.kdf.name = "argon2id" := by
  rw [LoadAndUnwrapMEK] at h
  cases file with
  | none => split at h <;> simp_all [LoadVaultHeader]
  | some hdr =>
      simp only [LoadVaultHeader] at h
      repeat' split at h
      all_goals simp_all

/-- Opening a wrapped header under a key the AEAD rejects fails. -/
theorem LoadAndUnwrapMEK_opn_none (A : AEAD) (hdr : VaultHeader)
    (pdk nonceD ct : Bytes)
    (hdecn : b64Decode hdr.wrapNonce = some nonceD)
    (hdecc : b64Decode hdr.wrappedMEK = some ct)
    (hopn : A.opn pdk nonceD ct headerMEKAAD = none) :
    ∃ e, LoadAndUnwrapMEK A (some hdr) pdk = .error e := by
  rw [LoadAndUnwrapMEK]
  by_cases hp : pdk.length ≠ 32
  · rw [if_pos hp]; exact ⟨_, rfl⟩
  · rw [if_neg hp]
    simp only [LoadVaultHeader]
    by_cases hv : hdr.version ≠ 1
    · rw [if_pos hv]; exact ⟨_, rfl⟩
    · rw [if_neg hv]
      by_cases hk : hdr.kdf.name ≠ "argon2id"
      · rw [if_pos hk]; exact ⟨_, rfl⟩
      · rw [if_neg hk]
        by_cases hw : hdr.wrapNonce = "" ∨ hdr.wrappedMEK = ""
        · rw [if_pos hw]; exact ⟨_, rfl⟩
        · rw [if_neg hw]
          simp only [hdecn, hdecc, DecryptAESGCM]
          rw [if_neg (by omega)]
          by_cases hn2 : nonceD.length ≠ 12
          · rw [if_pos hn2]; exact ⟨_, rfl⟩
          · rw [if_neg hn2, hopn]; exact ⟨_, rfl⟩

/-- `ChangeMaster` either leaves the header file unchanged or returns a
service-level success. -/
theorem changeMaster_result_cases (A : AEAD)
    (argon2fn : Bytes → Bytes → Argon2Params → Bytes) (policyOk saveOk : Bool)
    (svc : GoService) (file : Option VaultHeader) (oldMaster newMaster : String)
    (newSaltR wrapNonceR : Bytes) (now : Nat) :
    (ChangeMaster A argon2fn policyOk saveOk svc file oldMaster newMaster
      newSaltR wrapNonceR now).2 = file ∨
    ∃ svc', (ChangeMaster A argon2fn policyOk saveOk svc file oldMaster newMaster
      newSaltR wrapNonceR now).1 = .ok svc' := by
  rw [ChangeMaster]
  repeat'
    first
    | exact Or.inl rfl
    | exact Or.inr ⟨_, rfl⟩
    | split
    | dsimp only

/-- The header written by a successful rewrap, spelled out. -/
def rewrapHeader (hdr : VaultHeader) (newSalt wrapNonce ct : Bytes) (now : Nat) :
    VaultHeader :=
  { version := hdr.version, user := hdr.user, createdAt := hdr.createdAt,
    updatedAt := now, salt := b64Encode newSalt,
    wrapNonce := b64Encode wrapNonce, wrappedMEK := b64Encode ct,
    kdf := { name := "argon2id", memoryMB := hdr.kdf.memoryMB,
             time := hdr.kdf.time, parallelism := hdr.kdf.parallelism,
             saltLen := hdr.kdf.saltLen, keyLen := hdr.kdf.keyLen } }

/-- The Argon2 parameter record `buildKDF` assembles from a header. -/
def headerParams (hdr : VaultHeader) : Argon2Params :=
  { memoryMB := hdr.kdf.memoryMB, time := hdr.kdf.time,
    parallelism := hdr.kdf.parallelism, saltLen := hdr.kdf.saltLen,
    keyLen := hdr.kdf.keyLen }

/-- C6: `ChangeMaster` is atomic — on any error the persisted header is
unchanged — and on success the same MEK is merely rewrapped under the
PDK of the new password over the fresh salt, so the new PDK unlocks the
new header to the very same MEK, the old PDK no longer does, and the
entry table (whose rows decrypt under the unchanged MEK) is untouched. -/
theorem changeMaster_atomic_and_preserves_mek (A : AEAD)
    (argon2fn : Bytes → Bytes → Argon2Params → Bytes)
    (policyOk saveOk : Bool) (svc : GoService) (file : Option VaultHeader)
    (hdr : VaultHeader) (oldMaster newMaster : String)
    (oldSalt newSaltR wrapNonceR mek oldPDK newPDK : Bytes) (now : Nat)
    (hfile : file = some hdr)
    (hsalt : b64Decode hdr.salt = some oldSalt)
    (hoM : oldMaster ≠ "") (hnM : newMaster ≠ "")
    (hoMb : strBytes oldMaster ≠ []) (hnMb : strBytes newMaster ≠ [])
    (hpol : policyOk = true)
    (hos : oldSalt.length = 12) (hns : newSaltR.length = 12)
    (hkeyLen : hdr.kdf.keyLen = 32) (hmemNZ : hdr.kdf.memoryMB ≠ 0)
    (htimeNZ : hdr.kdf.time ≠ 0) (hslPos : 0 < hdr.kdf.saltLen)
    (hoPDK : oldPDK = argon2fn (strBytes oldMaster) oldSalt (headerParams hdr))
    (hnPDK : newPDK = argon2fn (strBytes newMaster) newSaltR (headerParams hdr))
    (hoPDKlen : oldPDK.length = 32) (hnPDKlen : newPDK.length = 32)
    (hnPDKB : ∀ b ∈ newPDK, b < 256)
    (hunwrap : LoadAndUnwrapMEK A file oldPDK = .ok (mek, hdr))
    (hmek32 : mek.length = 32) (hmekB : ∀ b ∈ mek, b < 256)
    (hwn12 : wrapNonceR.length = 12) (hwnB : ∀ b ∈ wrapNonceR, b < 256)
    (hauth : ∀ n p a, A.opn oldPDK n (A.enc newPDK n p a) a = none) :
    (∀ e, (ChangeMaster A argon2fn policyOk saveOk svc file oldMaster newMaster
        newSaltR wrapNonceR now).1 = .error e →
      (ChangeMaster A argon2fn policyOk saveOk svc file oldMaster newMaster
        newSaltR wrapNonceR now).2 = file) ∧
    (saveOk = true → ∃ hdr2,
      (ChangeMaster A argon2fn policyOk saveOk svc file oldMaster newMaster
        newSaltR wrapNonceR now) = (.ok { svc with mek := some mek }, some hdr2) ∧
      LoadAndUnwrapMEK A (some hdr2) newPDK = .ok (mek, hdr2) ∧
      (∃ e, LoadAndUnwrapMEK A (some hdr2) oldPDK = .error e) ∧
      ({ svc with mek := some mek } : GoService).table = svc.table) := by
  have hver : hdr.version = 1 :=
    (LoadAndUnwrapMEK_ok_inv A file oldPDK mek hdr hunwrap).2.1
  have hkdf : hdr.kdf.name = "argon2id" :=
    (LoadAndUnwrapMEK_ok_inv A file oldPDK mek hdr hunwrap).2.2
  constructor
  · intro e herr
    rcases changeMaster_result_cases A argon2fn policyOk saveOk svc file oldMaster
      newMaster newSaltR wrapNonceR now with hsame | ⟨svc', hok⟩
    · exact hsame
    · rw [hok] at herr
      simp at herr
  · intro hsave
    subst hpol hsave hfile
    have hbk : buildKDF hdr = .ok (headerParams hdr, oldSalt) := by
      simp [buildKDF, hsalt, headerParams]
    have hdo : DeriveKeyArgon2id argon2fn (strBytes oldMaster) oldSalt
        (headerParams hdr) = .ok oldPDK := by
      rw [DeriveKeyArgon2id, if_neg (by simp [hoMb]), if_neg (by omega),
        if_neg (by rw [hos]; simp [expectedSaltSz]),
        if_neg (by simp [headerParams, hkeyLen]),
        if_neg (by simp [headerParams, hmemNZ]),
        if_neg (by simp [headerParams, htimeNZ]),
        if_neg (by simp only [headerParams]; omega)]
      have hkl : (headerParams hdr).keyLen = 32 := by simp [headerParams, hkeyLen]
      simp [← hoPDK, hkl, hoPDKlen]
    have hdn : DeriveKeyArgon2id argon2fn (strBytes newMaster) newSaltR
        (headerParams hdr) = .ok newPDK := by
      rw [DeriveKeyArgon2id, if_neg (by simp [hnMb]), if_neg (by omega),
        if_neg (by rw [hns]; simp [expectedSaltSz]),
        if_neg (by simp [headerParams, hkeyLen]),
        if_neg (by simp [headerParams, hmemNZ]),
        if_neg (by simp [headerParams, htimeNZ]),
        if_neg (by simp only [headerParams]; omega)]
      have hkl : (headerParams hdr).keyLen = 32 := by simp [headerParams, hkeyLen]
      simp [← hnPDK, hkl, hnPDKlen]
    have hrw : RewrapMEK A true
        ({ hdr with
            salt := b64Encode newSaltR,
            kdf := { hdr.kdf with name := "argon2id" } })
        newPDK mek wrapNonceR now =
        .ok (some (rewrapHeader hdr newSaltR wrapNonceR
          (A.enc newPDK wrapNonceR mek headerMEKAAD) now)) := by
      rw [RewrapMEK, if_neg (by omega), if_neg (by omega),
        if_neg (by simp [hver]), if_neg (by simp)]
      rw [EncryptAESGCM, if_neg (by omega)]
      rfl
    have hrun : ChangeMaster A argon2fn true true svc (some hdr) oldMaster
        newMaster newSaltR wrapNonceR now =
        (.ok { svc with mek := some mek },
          some (rewrapHeader hdr newSaltR wrapNonceR
            (A.enc newPDK wrapNonceR mek headerMEKAAD) now)) := by
      rw [ChangeMaster, if_neg (by simp [hoM, hnM]), if_neg (by simp)]
      simp only [LoadVaultHeader, hbk, hdo, hunwrap, hdn, hrw]
    refine ⟨_, hrun, ?_, ?_, rfl⟩
    · exact LoadAndUnwrapMEK_of_wrapped A _ newPDK mek wrapNonceR hnPDKlen hmek32
        hnPDKB hmekB hwn12 hwnB (by simpa [rewrapHeader] using hver)
        (by simp [rewrapHeader]) rfl rfl
    · have hctB : ∀ b ∈ A.enc newPDK wrapNonceR mek headerMEKAAD, b < 256 :=
        A.enc_bytes _ _ _ _ hnPDKB hmekB
      exact LoadAndUnwrapMEK_opn_none A _ oldPDK wrapNonceR
        (A.enc newPDK wrapNonceR mek headerMEKAAD)
        (by simpa [rewrapHeader] using b64Decode_encode _ hwnB)
        (by simpa [rewrapHeader] using b64Decode_encode _ hctB)
        (hauth _ _ _)

/-- Concrete Argon2 parameters for the ChangeMaster witness. -/
def c6ArgParams : Argon2Params :=
  { memoryMB := 64, time := 3, parallelism := 1, saltLen := 12, keyLen := 32 }

/-- Concrete old/new PDKs for the ChangeMaster witness. -/
def c6OldPdk : Bytes :=
  toyArgon2 (strBytes "aA1!aaaaaaaa") (List.replicate 12 3) c6ArgParams

def c6NewPdk : Bytes :=
  toyArgon2 (strBytes "bB2@bbbbbbbb") (List.replicate 12 4) c6ArgParams

def c6Mek : Bytes := List.replicate 32 7

/-- Concrete initialized header wrapping `c6Mek` under `c6OldPdk`. -/
def c6Hdr : VaultHeader :=
  { version := 1, user := "alice", createdAt := 1, updatedAt := 1,
    salt := b64Encode (List.replicate 12 3),
    wrapNonce := b64Encode (List.replicate 12 8),
    wrappedMEK := b64Encode (toyAEAD.enc c6OldPdk (List.replicate 12 8) c6Mek
      headerMEKAAD),
    kdf := { name := "argon2id", memoryMB := 64, time := 3, parallelism := 1,
             saltLen := 12, keyLen := 32 } }

def c6Svc : GoService := { mek := none, table := vaultOpenTable }

/-- The concrete ChangeMaster run of the witness. -/
def c6Run : (Except String GoService) × Option VaultHeader :=
  ChangeMaster toyAEAD toyArgon2 true true c6Svc (some c6Hdr)
    "aA1!aaaaaaaa" "bB2@bbbbbbbb" (List.replicate 12 4) (List.replicate 12 9) 2

/-- Concrete instantiation of the ChangeMaster theorem. -/
theorem changeMaster_atomic_and_preserves_mek_witness :
    (∀ e, c6Run.1 = .error e → c6Run.2 = some c6Hdr) ∧
    (true = true → ∃ hdr2,
      c6Run = (.ok { c6Svc with mek := some c6Mek }, some hdr2) ∧
      LoadAndUnwrapMEK toyAEAD (some hdr2) c6NewPdk = .ok (c6Mek, hdr2) ∧
      (∃ e, LoadAndUnwrapMEK toyAEAD (some hdr2) c6OldPdk = .error e) ∧
      ({ c6Svc with mek := some c6Mek } : GoService).table = c6Svc.table) :=
  changeMaster_atomic_and_preserves_mek toyAEAD toyArgon2 true true c6Svc
    (some c6Hdr) c6Hdr "aA1!aaaaaaaa" "bB2@bbbbbbbb"
    (List.replicate 12 3) (List.replicate 12 4) (List.replicate 12 9)
    c6Mek c6OldPdk c6NewPdk 2
    rfl (by rfl) (by decide) (by decide) (by decide) (by decide) rfl
    (by decide) (by decide) (by decide) (by decide) (by decide) (by decide)
    rfl rfl (by decide) (by decide) (by decide)
    (by rfl) (by decide) (by decide) (by decide) (by decide)
    (fun n p a => toyAEAD_auth c6NewPdk c6OldPdk n n p a a (by decide))

/-! ## Phishing evaluator (native-host/phishing.go)

`url.Parse` is external: the evaluator receives its result as
`Option URLParts`.  `idna.Lookup.ToASCII/ToUnicode`,
`publicsuffix.EffectiveTLDPlusOne` and the confusables library are the
function parameters `toASCII`, `toUnicode`, `psl`, `normalize`,
`homoglyphs`. -/

/-- The fields of a parsed URL the evaluator reads. -/
structure URLParts where
  scheme : String
  hostname : String
deriving DecidableEq

/-- The verdict record. -/
structure PhishingVerdict where
  ok : Bool
  reasons : List String
  etld1 : String
deriving DecidableEq

/-- List prefix test, executably. -/
def startsWithList : List Char → List Char → Bool
  | _, [] => true
  | [], _ :: _ => false
  | c :: cs, p :: ps => c == p && startsWithList cs ps

/-- Substring containment over char lists. -/
def containsSubList (pat : List Char) : List Char → Bool
  | [] => startsWithList [] pat
  | c :: rest => startsWithList (c :: rest) pat || containsSubList pat rest

/-- `strings.Contains`. -/
def goContains (s pat : String) : Bool := containsSubList pat.toList s.toList

/-- Split a char list on a separator. -/
def splitOnChar (sep : Char) : List Char → List (List Char)
  | [] => [[]]
  | c :: rest =>
      match splitOnChar sep rest with
      | [] => if c = sep then [[], []] else [[c]]
      | cur :: others => if c = sep then [] :: cur :: others else (c :: cur) :: others

/-- `detectScript(r)`: the principal blocks of the six Unicode script
tables the source consults (Latin, Cyrillic, Greek, Hiragana, Katakana,
Han); agrees with `unicode.In` on these ranges. -/
def detectScript (r : Char) : String :=
  let n := r.toNat
  if (65 ≤ n ∧ n ≤ 90) ∨ (97 ≤ n ∧ n ≤ 122) ∨ (0xC0 ≤ n ∧ n ≤ 0x24F) then "latin"
  else if 0x400 ≤ n ∧ n ≤ 0x4FF then "cyrillic"
  else if 0x370 ≤ n ∧ n ≤ 0x3FF then "greek"
  else if 0x3040 ≤ n ∧ n ≤ 0x309F then "hiragana"
  else if 0x30A0 ≤ n ∧ n ≤ 0x30FF then "katakana"
  else if 0x4E00 ≤ n ∧ n ≤ 0x9FFF then "han"
  else ""

/-- `hasMixedScript(host)`: two or more distinct recognized scripts. -/
def hasMixedScript (host : String) : Bool :=
  if host = "" then false
  else
    let labels := splitOnChar '.' host.toList
    let scripts := ((labels.flatten.map detectScript).filter (fun s => s ≠ "")).dedup
    decide (2 ≤ scripts.length)

/-- `looksConfusable(target, candidate)`. -/
def looksConfusable (normalize : String → String) (homoglyphs : String → Bool)
    (target candidate : String) : Bool :=
  let target := goTrimSpace target
  let candidate := goTrimSpace candidate
  if target = "" ∨ candidate = "" ∨ target = candidate then false
  else if goToLower (normalize target) ≠ goToLower (normalize candidate) then false
  else homoglyphs target || homoglyphs candidate

/-- `evaluatePhishingCheck(rawURL, savedETLD1, exactHost)`. -/
def evaluatePhishingCheck (toASCII toUnicode psl : String → Option String)
    (normalize : String → String) (homoglyphs : String → Bool)
    (parsed : Option URLParts) (savedETLD1 exactHost : String) : PhishingVerdict :=
  match parsed with
  | none => { ok := false, reasons := ["URL_PARSE_ERROR"], etld1 := "" }
  | some u =>
      if u.hostname = "" then { ok := false, reasons := ["URL_PARSE_ERROR"], etld1 := "" }
      else
        let hostLower := goToLower u.hostname
        let asciiHost := match toASCII hostLower with
          | some c => if c ≠ "" then c else hostLower
          | none => hostLower
        let unicodeHost := match toUnicode hostLower with
          | some c => if c ≠ "" then c else hostLower
          | none => hostLower
        let etld1a := if asciiHost ≠ "" then
            (match psl asciiHost with | some v => goToLower v | none => "")
          else ""
        let etld1 := if etld1a = "" ∧ unicodeHost ≠ "" then
            (match psl unicodeHost with | some v => goToLower v | none => "")
          else etld1a
        let saved := goToLower (goTrimSpace savedETLD1)
        let exact := goTrimSpace exactHost
        let reasons :=
          (if ¬ goEqualFold u.scheme "https" = true then ["HTTP"] else []) ++
          (if etld1 = "" then ["ETLD_INVALID"] else []) ++
          (if saved ≠ "" ∧ etld1 ≠ "" ∧ ¬ goEqualFold saved etld1 = true then
            ["ETLD_MISMATCH"] else []) ++
          (if exact ≠ "" ∧ hostLower ≠ "" ∧ ¬ goEqualFold exact hostLower = true then
            ["HOST_MISMATCH"] else []) ++
          (if goContains hostLower "xn--" = true then ["PUNYCODE"] else []) ++
          (if hasMixedScript unicodeHost = true then ["MIXED_SCRIPT"] else []) ++
          (if saved ≠ "" ∧ etld1 ≠ "" ∧
              looksConfusable normalize homoglyphs saved etld1 = true then
            ["CONFUSABLE"] else [])
        { ok := reasons.isEmpty, reasons := reasons, etld1 := etld1 }

/-! ## Punycode (RFC 3492) — executable model of `idna.Lookup.ToASCII`

The idna library is external.  To settle the PUNYCODE claim on a real
Unicode host an executable model of its ASCII conversion is needed for
lowercase hosts: each non-ASCII label is punycode-encoded and prefixed
with `xn--`.  The encoder below is RFC 3492 with the standard
parameters; `idnaToASCII_apple_vector` checks it against the vector
pinned by the specification (`xn--pple-43d.com`). -/

def punyDigit (d : Nat) : Char :=
  if d < 26 then Char.ofNat (97 + d) else Char.ofNat (48 + (d - 26))

def punyAdaptLoop : Nat → Nat → Nat → Nat × Nat
  | 0, k, delta => (k, delta)
  | fuel + 1, k, delta =>
      if 455 < delta then punyAdaptLoop fuel (k + 36) (delta / 35)
      else (k, delta)

def punyAdapt (delta0 numpoints : Nat) (firsttime : Bool) : Nat :=
  let d1 := delta0 / (if firsttime then 700 else 2)
  let d2 := d1 + d1 / numpoints
  let kd := punyAdaptLoop d2 0 d2
  kd.1 + 36 * kd.2 / (kd.2 + 38)

def punyEncodeVarLoop (bias : Nat) : Nat → Nat → Nat → List Char
  | 0, q, _ => [punyDigit q]
  | fuel + 1, q, k =>
      let t := if k ≤ bias then 1 else if bias + 26 ≤ k then 26 else k - bias
      if q < t then [punyDigit q]
      else punyDigit (t + (q - t) % (36 - t)) ::
        punyEncodeVarLoop bias fuel ((q - t) / (36 - t)) (k + 36)

def punyInner (n bFirst : Nat) : List Nat → Nat → Nat → Nat →
    List Char × Nat × Nat × Nat
  | [], delta, bias, h => ([], delta, bias, h)
  | c :: rest, delta, bias, h =>
      if c < n then punyInner n bFirst rest (delta + 1) bias h
      else if c = n then
        let chunk := punyEncodeVarLoop bias (delta + 36) delta 36
        let bias2 := punyAdapt delta (h + 1) (decide (h = bFirst))
        let r := punyInner n bFirst rest 0 bias2 (h + 1)
        (chunk ++ r.1, r.2)
      else punyInner n bFirst rest delta bias h

def punyMainLoop (input : List Nat) (bFirst : Nat) :
    Nat → Nat → Nat → Nat → Nat → List Char
  | 0, _, _, _, _ => []
  | fuel + 1, n, delta, bias, h =>
      if input.length ≤ h then []
      else
        let m := (input.filter (fun c => n ≤ c)).foldl min 4294967296
        let delta1 := delta + (m - n) * (h + 1)
        let r := punyInner m bFirst input delta1 bias h
        r.1 ++ punyMainLoop input bFirst fuel (m + 1) (r.2.1 + 1) r.2.2.1 r.2.2.2

def punycodeEncode (input : List Nat) : List Char :=
  let basic := (input.filter (fun c => c < 128)).map Char.ofNat
  let b := basic.length
  let head := if 0 < b then basic ++ ['-'] else basic
  head ++ punyMainLoop input b (input.length + 1) 128 0 72 b

/-- Modelled from the idna library contract: `ToASCII` of an
already-lowercase host keeps ASCII labels and punycode-encodes the
rest behind `xn--`. -/
def idnaToASCII (host : String) : Option String :=
  let labels := splitOnChar '.' host.toList
  let enc := labels.map (fun l =>
    if l.all (fun c => c.toNat < 128) then l
    else ['x', 'n', '-', '-'] ++ punycodeEncode (l.map Char.toNat))
  some (String.mk (List.intercalate ['.'] enc))

/-- The punycode model reproduces the vector the specification pins for
scenario 4: the Cyrillic-а homograph of apple.com. -/
theorem idnaToASCII_apple_vector :
    idnaToASCII "аpple.com" = some "xn--pple-43d.com" := by decide

theorem mem_if_singleton (s x : String) (c : Prop) [Decidable c] :
    (s ∈ (if c then [x] else ([] : List String))) ↔ (c ∧ s = x) := by
  split <;> simp_all

/-- C7 as stated is false: for the Unicode host `аpple.com` (Cyrillic а)
the IDNA ASCII form is `xn--pple-43d.com`, which contains `"xn--"`, yet
the evaluator does not append PUNYCODE, because the source tests the raw
lowercased host rather than the ASCII form. -/
theorem punycode_reason_counterexample :
    idnaToASCII (goToLower "аpple.com") = some "xn--pple-43d.com" ∧
    goContains "xn--pple-43d.com" "xn--" = true ∧
    ("PUNYCODE" ∈ (evaluatePhishingCheck idnaToASCII (fun h => some h)
        (fun h => if h = "xn--pple-43d.com" then some "xn--pple-43d.com" else none)
        (fun s => s) (fun _ => false)
        (some { scheme := "https", hostname := "аpple.com" }) "" "").reasons →
      False) := by decide

/-- C7 (amended): the evaluator appends PUNYCODE exactly when the raw
lowercased host — not the IDNA ASCII form — contains `"xn--"`. -/
theorem punycode_reason_iff_raw_host (toASCII toUnicode psl : String → Option String)
    (normalize : String → String) (homoglyphs : String → Bool)
    (u : URLParts) (saved exact : String) (hh : u.hostname ≠ "") :
    ("PUNYCODE" ∈ (evaluatePhishingCheck toASCII toUnicode psl normalize homoglyphs
        (some u) saved exact).reasons) ↔
      goContains (goToLower u.hostname) "xn--" = true := by
  have n1 : ¬ (("PUNYCODE" : String) = "HTTP") := by decide
  have n2 : ¬ (("PUNYCODE" : String) = "ETLD_INVALID") := by decide
  have n3 : ¬ (("PUNYCODE" : String) = "ETLD_MISMATCH") := by decide
  have n4 : ¬ (("PUNYCODE" : String) = "HOST_MISMATCH") := by decide
  have n5 : ¬ (("PUNYCODE" : String) = "MIXED_SCRIPT") := by decide
  have n6 : ¬ (("PUNYCODE" : String) = "CONFUSABLE") := by decide
  simp only [evaluatePhishingCheck]
  rw [if_neg hh]
  simp [mem_if_singleton, n1, n2, n3, n4, n5, n6]

/-- Concrete instantiation of the amended PUNYCODE characterization. -/
theorem punycode_reason_iff_raw_host_witness :
    ("PUNYCODE" ∈ (evaluatePhishingCheck idnaToASCII (fun h => some h)
        (fun h => if h = "xn--pple-43d.com" then some "xn--pple-43d.com" else none)
        (fun s => s) (fun _ => false)
        (some { scheme := "https", hostname := "аpple.com" }) "" "").reasons) ↔
      goContains (goToLower "аpple.com") "xn--" = true :=
  punycode_reason_iff_raw_host idnaToASCII (fun h => some h)
    (fun h => if h = "xn--pple-43d.com" then some "xn--pple-43d.com" else none)
    (fun s => s) (fun _ => false)
    { scheme := "https", hostname := "аpple.com" } "" "" (by decide)

end PM
